import Mathlib

/-!
Shallow embedding, in Lean 4, of the core of the `mcp-context-rust`
repository: the observation archive (`src/observations.rs`) and the
`.rustscp` project-context component (`src/rustscp.rs`, with the input
types from `src/types.rs`).

Modelling conventions, stated once:
* Machine integers (`u8`, `usize`, `u64`) are modelled as `Nat`.
* `chrono::DateTime<Utc>` instants are modelled as `Nat` (an abstract
  instant); `Utc::now()` becomes an explicit `now` parameter.
* `f32` values are modelled by their IEEE-754 bit patterns as `Nat`;
  the code only ever copies scores, it never computes with them.
* Fallible Rust code returning `anyhow::Result<T>` is modelled as
  `Except String T`, carrying the error message.
* Filesystem directories are modelled as explicit values threaded
  through the functions: the observation cache directory as an
  association list from file name to file content, and a project
  directory (whose only relevant entry is the `.rustscp` file) as an
  `Option` of that file's content.
* JSON (de)serialization via serde is abstracted: a stored file either
  holds the serialized record itself (`serde` round-trips a record to
  itself) or is unparseable junk, modelled by a dedicated constructor.
-/

/-! ## UUID syntax (`uuid` crate, `Uuid::parse_str` / `Uuid::to_string`)

`ObservationStore::get` validates its input with `Uuid::parse_str`.
The crate accepts four shapes: 32 hex digits (simple), the 36-character
hyphenated form, the hyphenated form in braces (38 characters), and the
hyphenated form behind a case-insensitive `urn:uuid:` prefix
(45 characters). Hex digits may be upper- or lowercase. -/

/-- Is `c` an ASCII hexadecimal digit (either case), as accepted by the
`uuid` crate's parser? -/
def isHexDigitChar (c : Char) : Bool :=
  (('0' ≤ c) && (c ≤ '9')) || (('a' ≤ c) && (c ≤ 'f')) || (('A' ≤ c) && (c ≤ 'F'))

/-- The `uuid` crate's `parse_hyphenated`: 36 characters, hyphens at
positions 8, 13, 18, 23, hex digits everywhere else. -/
def hyphenatedOk (cs : List Char) : Bool :=
  (cs.length == 36) &&
  (cs.take 8).all isHexDigitChar &&
  (cs.getD 8 ' ' == '-') &&
  ((cs.drop 9).take 4).all isHexDigitChar &&
  (cs.getD 13 ' ' == '-') &&
  ((cs.drop 14).take 4).all isHexDigitChar &&
  (cs.getD 18 ' ' == '-') &&
  ((cs.drop 19).take 4).all isHexDigitChar &&
  (cs.getD 23 ' ' == '-') &&
  (cs.drop 24).all isHexDigitChar

/-- The nine characters of the (case-insensitive) `urn:uuid:` header,
lowercased for comparison. -/
def urnUuidHeader : List Char :=
  [ 'u', 'r', 'n', ':', 'u', 'u', 'i', 'd', ':' ]

/-- Embedding of `Uuid::parse_str` (validity only; the parsed bytes are
irrelevant to this codebase, which only ever uses the input string).
Follows the `uuid` crate's `try_parse_ascii` dispatch on length. -/
def uuidParseOk (s : String) : Bool :=
  if s.data.length == 32 then s.data.all isHexDigitChar
  else if s.data.length == 36 then hyphenatedOk s.data
  else if s.data.length == 38 then
    match s.data with
    | '{' :: rest => (rest.getLast? == some '}') && hyphenatedOk rest.dropLast
    | _ => false
  else if s.data.length == 45 then
    ((s.data.take 9).map Char.toLower == urnUuidHeader) && hyphenatedOk (s.data.drop 9)
  else false

/-- Coarse overapproximation of the characters that can occur in any
string accepted by `uuidParseOk`: hex digits, the hyphen, the braces,
and characters whose lowercasing occurs in the `urn:uuid:` header.
Path-separator and dot characters are not in this set. -/
def uuidCoarseChar (c : Char) : Bool :=
  isHexDigitChar c || (c == '-') || (c == '{') || (c == '}')
    || decide (Char.toLower c ∈ urnUuidHeader)

/-- Lowercase hex digit for a nibble (`0`–`9`, `a`–`f`), as produced by
the `uuid` crate's `Uuid::to_string`. -/
def nibbleChar (n : Nat) : Char :=
  if n < 10 then Char.ofNat (48 + n) else Char.ofNat (87 + n)

/-- The last `k` nibbles of `n`, most significant first, as lowercase
hex digits. -/
def hexDigits (n : Nat) : Nat → List Char
  | 0 => []
  | k + 1 => hexDigits (n / 16) k ++ [nibbleChar (n % 16)]

/-- Embedding of `Uuid::to_string`: the hyphenated lowercase rendering
(8-4-4-4-12) of the 128-bit value `u`. -/
def uuidToString (u : Nat) : String :=
  String.mk ((hexDigits u 32).take 8 ++ ('-' :: (((hexDigits u 32).drop 8).take 4
    ++ ('-' :: (((hexDigits u 32).drop 12).take 4 ++ ('-' :: (((hexDigits u 32).drop 16).take 4
    ++ ('-' :: (hexDigits u 32).drop 20))))))))

/-! ## Observation archive (`src/observations.rs`) -/

/-- Persisted observation record (struct `ObservationRecord`). -/
structure ObservationRecord where
  obs_id : String
  tool : String
  created_at : String
  content : String
deriving Repr, DecidableEq

/-- Content of one file in the observation cache directory: either a
serialized `ObservationRecord` (serde round-trips it unchanged) or
content that `serde_json::from_str` rejects. -/
inductive ObsFile where
  | record (r : ObservationRecord)
  | corrupted (raw : String)
deriving Repr, DecidableEq

/-- The observation cache directory: file name ↦ file content, most
recent write first (`fs::write` overwrites, so lookup takes the first
matching entry). -/
abbrev ObsDir := List (String × ObsFile)

/-- The error message of `ObservationStore::get` for an invalid id. -/
def invalidObsIdMsg : String :=
  "Invalid obs_id: must be a valid UUID (e.g. 550e8400-e29b-41d4-a716-446655440000)"

/-- Embedding of `ObservationStore::save`: the fresh v4 UUID (random in
the source) and the RFC3339 timestamp (`Utc::now()` in the source) are
explicit parameters. Returns the observation id and the updated
directory; `create_dir_all` is a no-op in this model. -/
def ObservationStore.save (dir : ObsDir) (uuid : Nat) (now : String)
    (tool_name : String) (full_output : String) : String × ObsDir :=
  let obs_id := uuidToString uuid
  let record : ObservationRecord :=
    { obs_id := obs_id, tool := tool_name, created_at := now, content := full_output }
  let file_name := obs_id ++ ".json"
  (obs_id, (file_name, ObsFile.record record) :: dir)

/-- Embedding of `ObservationStore::get`: validate the id as a UUID
(error before any directory access otherwise), then look the file up by
the literal id string; a missing file is `none`, a present file is
parsed and its `content` field returned. -/
def ObservationStore.get (dir : ObsDir) (obs_id : String) : Except String (Option String) :=
  if uuidParseOk obs_id then
    match List.lookup (obs_id ++ ".json") dir with
    | none => Except.ok none
    | some (ObsFile.record r) => Except.ok (some r.content)
    | some (ObsFile.corrupted _) => Except.error ("JSON parse error")
  else Except.error invalidObsIdMsg

/-! ## Input types (`src/types.rs`), restricted to what the context
synthesizer consumes -/

/-- IEEE-754 `f32` values, represented by their 32-bit patterns. The
synthesizer only copies scores; it never computes with them. -/
abbrev F32 := Nat

/-- Enum `ProjectType` from `src/types.rs`. -/
inductive ProjectType where
  | dotNet | rust | node | python | go | java | php | unknown
deriving Repr, DecidableEq

/-- `ProjectType::as_str`. -/
def ProjectType.as_str : ProjectType → String
  | .dotNet => "dotnet"
  | .rust => "rust"
  | .node => "node"
  | .python => "python"
  | .go => "go"
  | .java => "java"
  | .php => "php"
  | .unknown => "unknown"

/-- Enum `SymbolKind` from `src/types.rs`. -/
inductive SymbolKind where
  | class_ | interface | function | method | property | field | enum_
  | struct_ | module | trait_ | impl_ | component
  | other (s : String)
deriving Repr

/-- Struct `Symbol` from `src/types.rs`: a recursive tree. (Named
`CodeSymbol` here because `Symbol` is taken by Mathlib.) -/
inductive CodeSymbol where
  | mk (name : String) (kind : SymbolKind) (modifiers : List String)
      (children : List CodeSymbol)
deriving Repr

/-- Struct `SourceFile` from `src/types.rs` (paths as strings). -/
structure SourceFile where
  path : String
  language : String
  size_bytes : Nat
  symbols : List CodeSymbol
deriving Repr

/-- Struct `Dependency` from `src/types.rs`. -/
structure Dependency where
  name : String
  version : String
  dev_only : Bool
deriving Repr, DecidableEq

/-- Struct `ProjectMetadata` from `src/types.rs` (the `extra` map as an
association list). -/
structure ProjectMetadata where
  target_framework : Option String
  node_version : Option String
  python_version : Option String
  rust_edition : Option String
  entry_point : Option String
  build_command : Option String
  extra : List (String × String)
deriving Repr, DecidableEq

/-- Struct `Project` from `src/types.rs`. -/
structure Project where
  path : String
  name : String
  project_type : ProjectType
  version : Option String
  dependencies : List Dependency
  files : List SourceFile
  metadata : ProjectMetadata
deriving Repr

/-- Struct `CodePattern` from `src/types.rs`. -/
structure CodePattern where
  id : String
  category : String
  framework : String
  version : String
  title : String
  description : String
  code : String
  tags : List String
  usage_count : Nat
  relevance_score : F32
  created_at : Nat
  updated_at : Nat
deriving Repr, DecidableEq

/-- Enum `SeverityLevel` from `src/types.rs`. -/
inductive SeverityLevel where
  | info | warning | error
deriving Repr, DecidableEq

/-- Struct `Suggestion` from `src/types.rs`. -/
structure Suggestion where
  severity : SeverityLevel
  category : String
  message : String
  file : Option String
  line : Option Nat
deriving Repr, DecidableEq

/-- Struct `Statistics` from `src/types.rs`. -/
structure Statistics where
  total_files : Nat
  total_classes : Nat
  total_methods : Nat
  total_lines : Nat
  framework_version : String
  package_count : Nat
deriving Repr, DecidableEq

/-- Struct `AnalysisResult` from `src/types.rs`. -/
structure AnalysisResult where
  project : Project
  patterns : List CodePattern
  suggestions : List Suggestion
  statistics : Statistics
deriving Repr

/-! ## The `.rustscp` context (`src/rustscp.rs`) -/

/-- Struct `DepSummary` from `src/rustscp.rs`. -/
structure DepSummary where
  name : String
  version : String
  dev : Bool
deriving Repr, DecidableEq

/-- Struct `FileStats` from `src/rustscp.rs`. The Rust field
`by_extension` is a `HashMap<String, usize>`; it is modelled as its
list of entries in the map's (arbitrary) iteration order, with
pairwise-distinct keys. -/
structure FileStats where
  total_files : Nat
  by_extension : List (String × Nat)
deriving Repr, DecidableEq

/-- Struct `PatternRef` from `src/rustscp.rs`. -/
structure PatternRef where
  id : String
  title : String
  category : String
  score : F32
deriving Repr, DecidableEq

/-- Struct `ProjectContext` from `src/rustscp.rs`. -/
structure ProjectContext where
  version : Nat
  name : String
  project_type : String
  framework : Option String
  dependencies : List DepSummary
  stats : FileStats
  matched_patterns : List PatternRef
  created_at : Nat
  updated_at : Nat
deriving Repr, DecidableEq

/-- The serde field names of the persisted `ProjectContext` record, in
declaration order: exactly the keys of the JSON document written to
`.rustscp` (the `#[derive(Serialize)]` on the struct serializes every
field under its own name, and no other). -/
def projectContextFieldNames : List String :=
  [ "version", "name", "project_type", "framework", "dependencies",
    "stats", "matched_patterns", "created_at", "updated_at" ]

/-- One step of the histogram loop in `ProjectContext::from_analysis`:
`*by_extension.entry(key).or_default() += 1` on the entry list. A fresh
key is appended; the source's `HashMap` places it at an arbitrary
iteration position instead, but no claim settled here depends on the
iteration order of a freshly built histogram. -/
def bumpCount : List (String × Nat) → String → List (String × Nat)
  | [], k => [(k, 1)]
  | (k0, c) :: rest, k =>
    if k0 = k then (k0, c + 1) :: rest else (k0, c) :: bumpCount rest k

/-- The extension histogram built by `ProjectContext::from_analysis`
from the project's files (keyed by `file.language`). -/
def buildByExtension (files : List SourceFile) : List (String × Nat) :=
  files.foldl (fun m f => bumpCount m f.language) []

/-- Embedding of `ProjectContext::from_analysis`; `Utc::now()` is the
explicit `now` parameter. -/
def ProjectContext.from_analysis (analysis : AnalysisResult) (now : Nat) : ProjectContext :=
  let project := analysis.project
  let dependencies : List DepSummary :=
    project.dependencies.map fun d =>
      { name := d.name, version := d.version, dev := d.dev_only }
  let stats : FileStats :=
    { total_files := project.files.length
      by_extension := buildByExtension project.files }
  let matched_patterns : List PatternRef :=
    analysis.patterns.map fun p =>
      { id := p.id, title := p.title, category := p.category, score := p.relevance_score }
  let framework : Option String :=
    (project.metadata.target_framework.orElse fun _ =>
      (project.metadata.rust_edition.orElse fun _ =>
        (project.metadata.node_version.orElse fun _ =>
          project.metadata.python_version)))
  { version := 1
    name := project.name
    project_type := project.project_type.as_str
    framework := framework
    dependencies := dependencies
    stats := stats
    matched_patterns := matched_patterns
    created_at := now
    updated_at := now }

/-- Content of a `.rustscp` file on disk: either a serialized
`ProjectContext` (serde round-trips it unchanged) or content that
`serde_json::from_str` rejects. -/
inductive RustscpFile where
  | valid (ctx : ProjectContext)
  | corrupted (raw : String)
deriving Repr, DecidableEq

/-- A project directory, as far as this component reads it: the content
of its `.rustscp` file, or `none` when that file does not exist. -/
abbrev RustscpDir := Option RustscpFile

/-- The error message of `ProjectContext::load` on an unparseable file
(the source interpolates the path; the model keeps it fixed). -/
def rustscpParseErrMsg : String := "Failed to parse .rustscp"

/-- Embedding of `ProjectContext::load`: `Ok(None)` when the file does
not exist, a parse error when it exists but does not parse, otherwise
the stored context. -/
def ProjectContext.load (dir : RustscpDir) : Except String (Option ProjectContext) :=
  match dir with
  | none => Except.ok none
  | some (RustscpFile.corrupted _) => Except.error rustscpParseErrMsg
  | some (RustscpFile.valid ctx) => Except.ok (some ctx)

/-- Embedding of `ProjectContext::save` (which takes `&mut self`):
re-load the existing file, carry its `created_at` forward if present,
stamp `updated_at` with `now`, and write. Returns the mutated context
together with the new directory state (the source returns the file
path instead; the mutated `self` is visible to its caller). -/
def ProjectContext.save (self : ProjectContext) (now : Nat) (dir : RustscpDir) :
    Except String (ProjectContext × RustscpDir) :=
  match ProjectContext.load dir with
  | Except.error e => Except.error e
  | Except.ok existing =>
    let self1 :=
      match existing with
      | some ex => { self with created_at := ex.created_at }
      | none => self
    let self2 := { self1 with updated_at := now }
    Except.ok (self2, some (RustscpFile.valid self2))

/-! ## Markdown rendering (`ProjectContext::format_for_claude`)

The source builds one string by successive `push_str` calls; the
embedding builds the same string as a concatenation of the same blocks,
each block a named definition. -/

/-- One insertion step of a stable sort by count descending. Rust's
`sort_by(|a, b| b.1.cmp(a.1))` is a stable sort under exactly this
comparator: an element goes before the first element whose count is not
strictly larger, so equal-count entries keep their relative order. -/
def insertCountDesc (p : String × Nat) : List (String × Nat) → List (String × Nat)
  | [] => [p]
  | q :: qs => if q.2 ≤ p.2 then p :: q :: qs else q :: insertCountDesc p qs

/-- Stable sort of histogram entries by count descending — the
extensional behavior of `exts.sort_by(|a, b| b.1.cmp(a.1))` in
`format_for_claude` (any two stable sorts under the same comparator
agree). -/
def sortByCountDesc : List (String × Nat) → List (String × Nat)
  | [] => []
  | p :: ps => insertCountDesc p (sortByCountDesc ps)

/-- The `.ext: count` items of the extension breakdown, in rendered
order. -/
def extBreakdownItems (by_extension : List (String × Nat)) : List String :=
  (sortByCountDesc by_extension).map fun p => "." ++ p.1 ++ ": " ++ toString p.2

/-- The text appended after `**Files:** N total`: the parenthesized
extension breakdown when the histogram is nonempty, a bare newline
otherwise. -/
def extBreakdownPart (stats : FileStats) : String :=
  if stats.by_extension.isEmpty then "\n"
  else " (" ++ String.intercalate (", ") (extBreakdownItems stats.by_extension) ++ ")\n"

/-- The `prod_deps` filter in `format_for_claude`: dependencies whose
`dev` flag is false, in list order. -/
def prodDeps (self : ProjectContext) : List DepSummary :=
  self.dependencies.filter fun d => !d.dev

/-- The `## Dependencies` block (empty string when there are no
production dependencies). -/
def depsSection (self : ProjectContext) : String :=
  let pd := prodDeps self
  if pd.isEmpty then ""
  else "\n## Dependencies (" ++ toString pd.length ++ ")\n\n"
    ++ String.join (pd.map fun d => "- " ++ d.name ++ " (" ++ d.version ++ ")\n")

/-- Rendering of an `f32` relevance score. The source formats with
`{:.2}`; decimal display of floats is abstracted to a function of the
bit pattern — no claim settled here depends on this rendering. -/
def formatScore (s : F32) : String := toString s

/-- The `## Matched Patterns` block (empty string when no patterns
matched). -/
def patternsSection (self : ProjectContext) : String :=
  if self.matched_patterns.isEmpty then ""
  else "\n## Matched Patterns (" ++ toString self.matched_patterns.length ++ ")\n\n"
    ++ String.join (self.matched_patterns.map fun p =>
        "- **" ++ p.title ++ "** [" ++ p.category ++ "] (score: " ++ formatScore p.score ++ ")\n")

/-- Rendering of the trailing timestamp. The source formats the instant
with chrono's `"%Y-%m-%d %H:%M UTC"`; calendar display is abstracted to
a function of the instant — no claim settled here depends on it. -/
def formatTimestamp (t : Nat) : String := toString t

/-- The trailing `_Last updated:_` line. -/
def footerPart (self : ProjectContext) : String :=
  "\n---\n_Last updated: " ++ formatTimestamp self.updated_at ++ "_\n"

/-- Embedding of `ProjectContext::format_for_claude`. -/
def ProjectContext.format_for_claude (self : ProjectContext) : String :=
  "# Project: " ++ self.name ++ "\n\n"
  ++ "**Type:** " ++ self.project_type ++ " | **Framework:** " ++ self.framework.getD ("n/a") ++ "\n"
  ++ "**Files:** " ++ toString self.stats.total_files ++ " total"
  ++ extBreakdownPart self.stats
  ++ depsSection self
  ++ patternsSection self
  ++ footerPart self

/-! ## Concrete sample values used by witnesses and counterexamples -/

/-- Sample project metadata: no target framework, a Rust edition. -/
def metadataSample : ProjectMetadata :=
  { target_framework := none, node_version := none, python_version := none,
    rust_edition := some ("2021"), entry_point := none, build_command := none,
    extra := [] }

/-- Sample project with one production and one dev dependency and two
`rs` source files. -/
def projectSample : Project :=
  { path := "/work/app", name := "app", project_type := ProjectType.rust,
    version := none,
    dependencies :=
      [ { name := "serde", version := "1.0", dev_only := false },
        { name := "criterion", version := "0.5", dev_only := true } ],
    files :=
      [ { path := "src/main.rs", language := "rs", size_bytes := 100, symbols := [] },
        { path := "src/lib.rs", language := "rs", size_bytes := 50, symbols := [] } ],
    metadata := metadataSample }

/-- Sample statistics block. -/
def statisticsSample : Statistics :=
  { total_files := 2, total_classes := 0, total_methods := 1, total_lines := 10,
    framework_version := "2021", package_count := 2 }

/-- Sample code pattern, with a nonempty code body. -/
def patternSample : CodePattern :=
  { id := "p1", category := "error-handling", framework := "rust", version := "1",
    title := "Use anyhow", description := "D", code := "fn run() -> Result<()>",
    tags := ["errors"], usage_count := 3, relevance_score := 1056964608,
    created_at := 1, updated_at := 2 }

/-- Sample analysis result consumed by `from_analysis`. -/
def analysisSample : AnalysisResult :=
  { project := projectSample, patterns := [patternSample], suggestions := [],
    statistics := statisticsSample }

/-- The sample analysis with a target framework set (highest
priority). -/
def analysisTF : AnalysisResult :=
  { analysisSample with
    project :=
      { projectSample with
        metadata := { metadataSample with target_framework := some ("net8.0") } } }

/-- Sample persisted context. -/
def ctxSample : ProjectContext :=
  { version := 1, name := "app", project_type := "rust", framework := some ("2021"),
    dependencies := [{ name := "serde", version := "1.0", dev := false }],
    stats := { total_files := 2, by_extension := [("rs", 2)] },
    matched_patterns := [], created_at := 100, updated_at := 200 }

/-- A later re-analysis of the same project: same content, fresh
`created_at` stamp (as `from_analysis` would produce). -/
def ctxSample2 : ProjectContext := { ctxSample with created_at := 777 }

/-- Context whose extension histogram iterates as the entry list
`[("a", 2), ("b", 2)]`. -/
def ctxTieA : ProjectContext :=
  { version := 1, name := "P", project_type := "rust", framework := none,
    dependencies := [],
    stats := { total_files := 4, by_extension := [("a", 2), ("b", 2)] },
    matched_patterns := [], created_at := 0, updated_at := 0 }

/-- The same histogram as `ctxTieA` as a finite map, but with the
opposite iteration order — Rust's `HashMap` iteration order is
arbitrary (seeded per map), so equal maps can iterate either way. -/
def ctxTieB : ProjectContext :=
  { ctxTieA with stats := { total_files := 4, by_extension := [("b", 2), ("a", 2)] } }

/-! ## Helper lemmas -/

/-- Dropping `n < length` elements exposes the element at index `n`. -/
theorem drop_eq_getD_cons {n : Nat} {l : List Char} (h : n < l.length) :
    l.drop n = l.getD n ' ' :: l.drop (n + 1) := by
  induction n generalizing l with
  | zero =>
    cases l with
    | nil => simp at h
    | cons x t => rfl
  | succ m ih =>
    cases l with
    | nil => simp at h
    | cons x t =>
      have hm : m < t.length := by simpa using h
      simpa using ih hm

/-- Every nibble renders to a hex digit. -/
theorem nibbleChar_hex {m : Nat} (h : m < 16) : isHexDigitChar (nibbleChar m) = true := by
  interval_cases m <;> decide

/-- `hexDigits` renders exactly `k` characters. -/
theorem hexDigits_length (n k : Nat) : (hexDigits n k).length = k := by
  induction k generalizing n with
  | zero => rfl
  | succ m ih => simp [hexDigits, ih]

/-- `hexDigits` renders only hex digits. -/
theorem hexDigits_all_hex (n k : Nat) : (hexDigits n k).all isHexDigitChar = true := by
  induction k generalizing n with
  | zero => rfl
  | succ m ih =>
    simp [hexDigits, List.all_append, ih, nibbleChar_hex (show n % 16 < 16 by omega)]

/-- Assembling five hex groups of lengths 8-4-4-4-12 with hyphens
passes `hyphenatedOk`. -/
theorem hyphenatedOk_build {a b c d e : List Char}
    (ha : a.length = 8) (hb : b.length = 4) (hc : c.length = 4)
    (hd : d.length = 4) (he : e.length = 12)
    (pa : a.all isHexDigitChar = true) (pb : b.all isHexDigitChar = true)
    (pc : c.all isHexDigitChar = true) (pd : d.all isHexDigitChar = true)
    (pe : e.all isHexDigitChar = true) :
    hyphenatedOk (a ++ ('-' :: (b ++ ('-' :: (c ++ ('-' :: (d ++ ('-' :: e)))))))) = true := by
  have hlen : (a ++ ('-' :: (b ++ ('-' :: (c ++ ('-' :: (d ++ ('-' :: e)))))))).length = 36 := by
    simp [ha, hb, hc, hd, he]
  have ht8 : (a ++ ('-' :: (b ++ ('-' :: (c ++ ('-' :: (d ++ ('-' :: e)))))))).take 8 = a :=
    List.take_left' ha
  have hdrop8 : (a ++ ('-' :: (b ++ ('-' :: (c ++ ('-' :: (d ++ ('-' :: e)))))))).drop 8
      = '-' :: (b ++ ('-' :: (c ++ ('-' :: (d ++ ('-' :: e)))))) :=
    List.drop_left' ha
  have hdrop9 : (a ++ ('-' :: (b ++ ('-' :: (c ++ ('-' :: (d ++ ('-' :: e)))))))).drop 9
      = b ++ ('-' :: (c ++ ('-' :: (d ++ ('-' :: e))))) := by
    rw [show (9 : Nat) = 8 + 1 from rfl, ← List.drop_drop, hdrop8]
    rfl
  have hdrop13 : (a ++ ('-' :: (b ++ ('-' :: (c ++ ('-' :: (d ++ ('-' :: e)))))))).drop 13
      = '-' :: (c ++ ('-' :: (d ++ ('-' :: e)))) := by
    rw [show (13 : Nat) = 9 + 4 from rfl, ← List.drop_drop, hdrop9]
    exact List.drop_left' hb
  have hdrop14 : (a ++ ('-' :: (b ++ ('-' :: (c ++ ('-' :: (d ++ ('-' :: e)))))))).drop 14
      = c ++ ('-' :: (d ++ ('-' :: e))) := by
    rw [show (14 : Nat) = 13 + 1 from rfl, ← List.drop_drop, hdrop13]
    rfl
  have hdrop18 : (a ++ ('-' :: (b ++ ('-' :: (c ++ ('-' :: (d ++ ('-' :: e)))))))).drop 18
      = '-' :: (d ++ ('-' :: e)) := by
    rw [show (18 : Nat) = 14 + 4 from rfl, ← List.drop_drop, hdrop14]
    exact List.drop_left' hc
  have hdrop19 : (a ++ ('-' :: (b ++ ('-' :: (c ++ ('-' :: (d ++ ('-' :: e)))))))).drop 19
      = d ++ ('-' :: e) := by
    rw [show (19 : Nat) = 18 + 1 from rfl, ← List.drop_drop, hdrop18]
    rfl
  have hdrop23 : (a ++ ('-' :: (b ++ ('-' :: (c ++ ('-' :: (d ++ ('-' :: e)))))))).drop 23
      = '-' :: e := by
    rw [show (23 : Nat) = 19 + 4 from rfl, ← List.drop_drop, hdrop19]
    exact List.drop_left' hd
  have hdrop24 : (a ++ ('-' :: (b ++ ('-' :: (c ++ ('-' :: (d ++ ('-' :: e)))))))).drop 24
      = e := by
    rw [show (24 : Nat) = 23 + 1 from rfl, ← List.drop_drop, hdrop23]
    rfl
  have hg8 : (a ++ ('-' :: (b ++ ('-' :: (c ++ ('-' :: (d ++ ('-' :: e)))))))).getD 8 ' ' = '-' := by
    have h := drop_eq_getD_cons
      (show 8 < (a ++ ('-' :: (b ++ ('-' :: (c ++ ('-' :: (d ++ ('-' :: e)))))))).length by omega)
    rw [hdrop8] at h
    injection h with h1 _
    exact h1.symm
  have hg13 : (a ++ ('-' :: (b ++ ('-' :: (c ++ ('-' :: (d ++ ('-' :: e)))))))).getD 13 ' ' = '-' := by
    have h := drop_eq_getD_cons
      (show 13 < (a ++ ('-' :: (b ++ ('-' :: (c ++ ('-' :: (d ++ ('-' :: e)))))))).length by omega)
    rw [hdrop13] at h
    injection h with h1 _
    exact h1.symm
  have hg18 : (a ++ ('-' :: (b ++ ('-' :: (c ++ ('-' :: (d ++ ('-' :: e)))))))).getD 18 ' ' = '-' := by
    have h := drop_eq_getD_cons
      (show 18 < (a ++ ('-' :: (b ++ ('-' :: (c ++ ('-' :: (d ++ ('-' :: e)))))))).length by omega)
    rw [hdrop18] at h
    injection h with h1 _
    exact h1.symm
  have hg23 : (a ++ ('-' :: (b ++ ('-' :: (c ++ ('-' :: (d ++ ('-' :: e)))))))).getD 23 ' ' = '-' := by
    have h := drop_eq_getD_cons
      (show 23 < (a ++ ('-' :: (b ++ ('-' :: (c ++ ('-' :: (d ++ ('-' :: e)))))))).length by omega)
    rw [hdrop23] at h
    injection h with h1 _
    exact h1.symm
  have ht9 : ((a ++ ('-' :: (b ++ ('-' :: (c ++ ('-' :: (d ++ ('-' :: e)))))))).drop 9).take 4 = b := by
    rw [hdrop9]; exact List.take_left' hb
  have ht14 : ((a ++ ('-' :: (b ++ ('-' :: (c ++ ('-' :: (d ++ ('-' :: e)))))))).drop 14).take 4 = c := by
    rw [hdrop14]; exact List.take_left' hc
  have ht19 : ((a ++ ('-' :: (b ++ ('-' :: (c ++ ('-' :: (d ++ ('-' :: e)))))))).drop 19).take 4 = d := by
    rw [hdrop19]; exact List.take_left' hd
  unfold hyphenatedOk
  rw [hlen, ht8, hg8, ht9, hg13, ht14, hg18, ht19, hg23, hdrop24]
  simp [pa, pb, pc, pd, pe]

/-- Sublists of an all-hex list are all-hex. -/
theorem all_hex_of_sublist {l l' : List Char} (hall : l.all isHexDigitChar = true)
    (hs : List.Sublist l' l) : l'.all isHexDigitChar = true := by
  rw [List.all_eq_true] at hall ⊢
  intro x hx
  exact hall x (hs.subset hx)

/-- The string produced by `uuidToString` passes `Uuid::parse_str`. -/
theorem uuidToString_parse (u : Nat) : uuidParseOk (uuidToString u) = true := by
  have hds : (hexDigits u 32).length = 32 := hexDigits_length u 32
  have hall : (hexDigits u 32).all isHexDigitChar = true := hexDigits_all_hex u 32
  have l1 : ((hexDigits u 32).take 8).length = 8 := by simp [List.length_take, hds]
  have l2 : (((hexDigits u 32).drop 8).take 4).length = 4 := by
    simp [List.length_take, List.length_drop, hds]
  have l3 : (((hexDigits u 32).drop 12).take 4).length = 4 := by
    simp [List.length_take, List.length_drop, hds]
  have l4 : (((hexDigits u 32).drop 16).take 4).length = 4 := by
    simp [List.length_take, List.length_drop, hds]
  have l5 : ((hexDigits u 32).drop 20).length = 12 := by simp [List.length_drop, hds]
  have p1 : ((hexDigits u 32).take 8).all isHexDigitChar = true :=
    all_hex_of_sublist hall (List.take_sublist 8 _)
  have p2 : (((hexDigits u 32).drop 8).take 4).all isHexDigitChar = true :=
    all_hex_of_sublist hall ((List.take_sublist 4 _).trans (List.drop_sublist 8 _))
  have p3 : (((hexDigits u 32).drop 12).take 4).all isHexDigitChar = true :=
    all_hex_of_sublist hall ((List.take_sublist 4 _).trans (List.drop_sublist 12 _))
  have p4 : (((hexDigits u 32).drop 16).take 4).all isHexDigitChar = true :=
    all_hex_of_sublist hall ((List.take_sublist 4 _).trans (List.drop_sublist 16 _))
  have p5 : ((hexDigits u 32).drop 20).all isHexDigitChar = true :=
    all_hex_of_sublist hall (List.drop_sublist 20 _)
  have hOk := hyphenatedOk_build l1 l2 l3 l4 l5 p1 p2 p3 p4 p5
  have hlen36 : ((hexDigits u 32).take 8 ++ ('-' :: (((hexDigits u 32).drop 8).take 4
      ++ ('-' :: (((hexDigits u 32).drop 12).take 4 ++ ('-' :: (((hexDigits u 32).drop 16).take 4
      ++ ('-' :: (hexDigits u 32).drop 20)))))))).length = 36 := by
    simp [l1, l2, l3, l4, l5]
  have hOk2 : hyphenatedOk (uuidToString u).data = true := hOk
  have hlen2 : (uuidToString u).data.length = 36 := hlen36
  unfold uuidParseOk
  rw [hlen2]
  simp [hOk2]

/-- The string produced by `uuidToString` has exactly 36 characters. -/
theorem uuidToString_length (u : Nat) : (uuidToString u).length = 36 := by
  have hds : (hexDigits u 32).length = 32 := hexDigits_length u 32
  have hlen36 : ((hexDigits u 32).take 8 ++ ('-' :: (((hexDigits u 32).drop 8).take 4
      ++ ('-' :: (((hexDigits u 32).drop 12).take 4 ++ ('-' :: (((hexDigits u 32).drop 16).take 4
      ++ ('-' :: (hexDigits u 32).drop 20)))))))).length = 36 := by
    simp [List.length_take, List.length_drop, hds]
  show (uuidToString u).data.length = 36
  exact hlen36

/-- Every character of a `hyphenatedOk` list is a hex digit or a
hyphen. -/
theorem hyphenatedOk_chars {cs : List Char} (h : hyphenatedOk cs = true) :
    ∀ c ∈ cs, (isHexDigitChar c || (c == '-')) = true := by
  unfold hyphenatedOk at h
  simp only [Bool.and_eq_true, beq_iff_eq, List.all_eq_true] at h
  obtain ⟨⟨⟨⟨⟨⟨⟨⟨⟨hlen, p1⟩, g8⟩, p2⟩, g13⟩, p3⟩, g18⟩, p4⟩, g23⟩, p5⟩ := h
  intro c hc
  rw [← List.take_append_drop 8 cs] at hc
  rcases List.mem_append.mp hc with h1 | h1
  · simp [p1 c h1]
  · rw [drop_eq_getD_cons (show 8 < cs.length by omega), g8] at h1
    rcases List.mem_cons.mp h1 with rfl | h1
    · simp
    · rw [← List.take_append_drop 4 (cs.drop 9)] at h1
      rcases List.mem_append.mp h1 with h2 | h2
      · simp [p2 c h2]
      · rw [List.drop_drop] at h2
        norm_num at h2
        rw [drop_eq_getD_cons (show 13 < cs.length by omega), g13] at h2
        rcases List.mem_cons.mp h2 with rfl | h2
        · simp
        · rw [← List.take_append_drop 4 (cs.drop 14)] at h2
          rcases List.mem_append.mp h2 with h3 | h3
          · simp [p3 c h3]
          · rw [List.drop_drop] at h3
            norm_num at h3
            rw [drop_eq_getD_cons (show 18 < cs.length by omega), g18] at h3
            rcases List.mem_cons.mp h3 with rfl | h3
            · simp
            · rw [← List.take_append_drop 4 (cs.drop 19)] at h3
              rcases List.mem_append.mp h3 with h4 | h4
              · simp [p4 c h4]
              · rw [List.drop_drop] at h4
                norm_num at h4
                rw [drop_eq_getD_cons (show 23 < cs.length by omega), g23] at h4
                rcases List.mem_cons.mp h4 with rfl | h4
                · simp
                · simp [p5 c h4]

/-- A hex-or-hyphen character is in the coarse character set. -/
theorem coarse_of_hex_or_hyphen {c : Char} (h : (isHexDigitChar c || (c == '-')) = true) :
    uuidCoarseChar c = true := by
  simp only [Bool.or_eq_true] at h
  rcases h with h1 | h1 <;> simp [uuidCoarseChar, h1]

/-- Every character of a string accepted by `uuidParseOk` lies in the
coarse character set. -/
theorem uuidParseOk_chars {s : String} (h : uuidParseOk s = true) :
    ∀ c ∈ s.data, uuidCoarseChar c = true := by
  intro c hc
  unfold uuidParseOk at h
  split at h
  · rw [List.all_eq_true] at h
    exact coarse_of_hex_or_hyphen (by simp [h c hc])
  · split at h
    · exact coarse_of_hex_or_hyphen (hyphenatedOk_chars h c hc)
    · split at h
      · split at h
        · rename_i rest heq
          simp only [Bool.and_eq_true] at h
          obtain ⟨hlast, hhyp⟩ := h
          rw [heq] at hc
          rcases List.mem_cons.mp hc with rfl | h1
          · simp [uuidCoarseChar]
          · have hne : rest ≠ [] := by
              intro hnil
              rw [hnil] at hlast
              simp at hlast
            have hlval : rest.getLast hne = '}' := by
              have := List.getLast?_eq_getLast rest hne
              rw [this] at hlast
              simpa using hlast
            rw [← List.dropLast_append_getLast hne] at h1
            rcases List.mem_append.mp h1 with h2 | h2
            · exact coarse_of_hex_or_hyphen (hyphenatedOk_chars hhyp c h2)
            · have : c = rest.getLast hne := by simpa using h2
              rw [this, hlval]
              simp [uuidCoarseChar]
        · exact absurd h (by simp)
      · split at h
        · simp only [Bool.and_eq_true] at h
          obtain ⟨hmap, hhyp⟩ := h
          have hmapeq : (s.data.take 9).map Char.toLower = urnUuidHeader := by
            simpa using hmap
          rw [← List.take_append_drop 9 s.data] at hc
          rcases List.mem_append.mp hc with h1 | h1
          · have hmem : Char.toLower c ∈ urnUuidHeader := by
              rw [← hmapeq]
              exact List.mem_map_of_mem Char.toLower h1
            simp [uuidCoarseChar, hmem]
          · exact coarse_of_hex_or_hyphen (hyphenatedOk_chars hhyp c h1)
        · exact absurd h (by simp)

/-- Inserting an element is a permutation of prepending it. -/
theorem insertCountDesc_perm (p : String × Nat) (l : List (String × Nat)) :
    List.Perm (insertCountDesc p l) (p :: l) := by
  induction l with
  | nil => exact List.Perm.refl _
  | cons q qs ih =>
    unfold insertCountDesc
    by_cases h : q.2 ≤ p.2
    · rw [if_pos h]
    · rw [if_neg h]
      have h1 : List.Perm (q :: insertCountDesc p qs) (q :: p :: qs) := List.Perm.cons q ih
      have h2 : List.Perm (q :: p :: qs) (p :: q :: qs) := List.Perm.swap p q qs
      exact h1.trans h2

/-- The stable sort is a permutation of its input. -/
theorem sortByCountDesc_perm (l : List (String × Nat)) :
    List.Perm (sortByCountDesc l) l := by
  induction l with
  | nil => exact List.Perm.refl _
  | cons p ps ih =>
    have h1 : List.Perm (insertCountDesc p (sortByCountDesc ps)) (p :: sortByCountDesc ps) :=
      insertCountDesc_perm _ _
    exact h1.trans (List.Perm.cons p ih)

/-- Inserting into a count-descending list keeps it count-descending. -/
theorem insertCountDesc_pairwise {p : String × Nat} {l : List (String × Nat)}
    (h : List.Pairwise (fun x y : String × Nat => y.2 ≤ x.2) l) :
    List.Pairwise (fun x y : String × Nat => y.2 ≤ x.2) (insertCountDesc p l) := by
  induction l with
  | nil => simp [insertCountDesc]
  | cons q qs ih =>
    obtain ⟨hq, hqs⟩ := List.pairwise_cons.mp h
    unfold insertCountDesc
    by_cases hle : q.2 ≤ p.2
    · rw [if_pos hle]
      refine List.pairwise_cons.mpr ⟨?_, h⟩
      intro y hy
      rcases List.mem_cons.mp hy with rfl | hy
      · exact hle
      · exact le_trans (hq y hy) hle
    · rw [if_neg hle]
      refine List.pairwise_cons.mpr ⟨?_, ih hqs⟩
      intro y hy
      have hy2 := (insertCountDesc_perm p qs).mem_iff.mp hy
      rcases List.mem_cons.mp hy2 with rfl | hy2
      · omega
      · exact hq y hy2

/-- The sorted histogram is count-descending. -/
theorem sortByCountDesc_pairwise (l : List (String × Nat)) :
    List.Pairwise (fun x y : String × Nat => y.2 ≤ x.2) (sortByCountDesc l) := by
  induction l with
  | nil => simp [sortByCountDesc]
  | cons p ps ih => exact insertCountDesc_pairwise ih

/-- Inserting an element of count `c` puts it in front of the filter of
count-`c` entries (everything it jumps over has a strictly larger
count). -/
theorem insertCountDesc_filter_eq {p : String × Nat} {l : List (String × Nat)} {c : Nat}
    (hp : p.2 = c) :
    (insertCountDesc p l).filter (fun q => q.2 == c)
      = p :: l.filter (fun q => q.2 == c) := by
  induction l with
  | nil => simp [insertCountDesc, List.filter_cons, hp]
  | cons q qs ih =>
    unfold insertCountDesc
    by_cases hle : q.2 ≤ p.2
    · rw [if_pos hle]
      simp [List.filter_cons, hp]
    · rw [if_neg hle]
      have hqc : (q.2 == c) = false := by
        simp only [beq_eq_false_iff_ne]
        omega
      simp [List.filter_cons, hqc, ih]

/-- Inserting an element of another count leaves the count-`c` filter
unchanged. -/
theorem insertCountDesc_filter_ne {p : String × Nat} {l : List (String × Nat)} {c : Nat}
    (hp : p.2 ≠ c) :
    (insertCountDesc p l).filter (fun q => q.2 == c) = l.filter (fun q => q.2 == c) := by
  have hpc : (p.2 == c) = false := by simp [beq_eq_false_iff_ne, hp]
  induction l with
  | nil => simp [insertCountDesc, List.filter_cons, hpc]
  | cons q qs ih =>
    unfold insertCountDesc
    by_cases hle : q.2 ≤ p.2
    · rw [if_pos hle]
      simp [List.filter_cons, hpc]
    · rw [if_neg hle]
      simp [List.filter_cons, ih]

/-- Stability of the sort: entries of any fixed count keep their
relative order (the count-`c` subsequence is untouched). -/
theorem sortByCountDesc_filter (l : List (String × Nat)) (c : Nat) :
    (sortByCountDesc l).filter (fun q => q.2 == c) = l.filter (fun q => q.2 == c) := by
  induction l with
  | nil => rfl
  | cons p ps ih =>
    show (insertCountDesc p (sortByCountDesc ps)).filter (fun q => q.2 == c)
        = (p :: ps).filter (fun q => q.2 == c)
    by_cases hp : p.2 = c
    · rw [insertCountDesc_filter_eq hp, ih]
      simp [List.filter_cons, hp]
    · rw [insertCountDesc_filter_ne hp, ih]
      simp [List.filter_cons, hp]

/-- Appending the same suffix to different strings yields different
strings. -/
theorem string_append_right_cancel {s t : String} (h : s ≠ t) (r : String) :
    s ++ r ≠ t ++ r := by
  intro he
  apply h
  apply String.ext
  have h2 := congrArg String.data he
  rw [String.data_append, String.data_append] at h2
  exact List.append_cancel_right h2

/-! ## Claim theorems -/

/-- C1: `ObservationStore::get` fails with the InvalidId error — and
reads nothing from the archive directory (its result does not depend on
it) — for every input that is not syntactically a valid UUID, which
includes every string containing `/`, `\` or the substring `..`; on a
syntactically valid UUID whose file does not exist it returns `Ok(None)`
rather than an error. -/
theorem C1_get_validation :
    (∀ s : String, ('/' ∈ s.data ∨ '\\' ∈ s.data ∨ ['.', '.'] <:+: s.data) →
        uuidParseOk s = false)
  ∧ (∀ (s : String) (dir : ObsDir), uuidParseOk s = false →
        ObservationStore.get dir s = Except.error invalidObsIdMsg)
  ∧ (∀ (s : String) (dir : ObsDir), uuidParseOk s = true →
        List.lookup (s ++ ".json") dir = none →
        ObservationStore.get dir s = Except.ok none) := by
  refine ⟨?_, ?_, ?_⟩
  · intro s h
    by_contra hne
    have hp : uuidParseOk s = true := by
      revert hne
      cases uuidParseOk s <;> simp
    have hall := uuidParseOk_chars hp
    rcases h with h | h | h
    · exact absurd (hall _ h) (by decide)
    · exact absurd (hall _ h) (by decide)
    · obtain ⟨pre, suf, heq⟩ := h
      have hdot : '.' ∈ s.data := by
        rw [← heq]
        simp
      exact absurd (hall _ hdot) (by decide)
  · intro s dir h
    simp [ObservationStore.get, h]
  · intro s dir h hlk
    simp [ObservationStore.get, h, hlk]

/-- Witness for C1 at concrete inputs. -/
theorem C1_get_validation_witness :
    uuidParseOk ("../../etc/passwd") = false
  ∧ ObservationStore.get [] ("../../etc/passwd") = Except.error invalidObsIdMsg
  ∧ ObservationStore.get [] ("550e8400-e29b-41d4-a716-446655440000") = Except.ok none :=
  ⟨C1_get_validation.1 ("../../etc/passwd") (Or.inl (by decide)),
   C1_get_validation.2.1 ("../../etc/passwd") []
     (C1_get_validation.1 ("../../etc/passwd") (Or.inl (by decide))),
   C1_get_validation.2.2 ("550e8400-e29b-41d4-a716-446655440000") [] (by decide) rfl⟩

/-- C3: `ObservationStore::save` returns a 36-character string that is
a syntactically valid UUID, and `get` called with exactly that string
on the updated archive returns the archived content unchanged. -/
theorem C3_save_get_roundtrip (dir : ObsDir) (u : Nat) (now tool content : String) :
    ((ObservationStore.save dir u now tool content).1).length = 36
  ∧ uuidParseOk (ObservationStore.save dir u now tool content).1 = true
  ∧ ObservationStore.get (ObservationStore.save dir u now tool content).2
      (ObservationStore.save dir u now tool content).1 = Except.ok (some content) := by
  refine ⟨uuidToString_length u, uuidToString_parse u, ?_⟩
  simp [ObservationStore.get, ObservationStore.save, uuidToString_parse u, List.lookup]

/-- C10: `get` looks the archive file up by the literal id string: a
string that parses as a UUID but is not byte-identical to the
hyphenated lowercase id returned by `save` passes validation, misses
the file, and yields `Ok(None)`, while the exact saved id yields the
content. -/
theorem C10_get_literal_name (u : Nat) (now tool content : String) (s : String)
    (hvalid : uuidParseOk s = true) (hne : s ≠ uuidToString u) :
    ObservationStore.get (ObservationStore.save [] u now tool content).2 s = Except.ok none
  ∧ ObservationStore.get (ObservationStore.save [] u now tool content).2
      (ObservationStore.save [] u now tool content).1 = Except.ok (some content) := by
  constructor
  · have hkey : ((s ++ ".json") == (uuidToString u ++ ".json")) = false := by
      rw [beq_eq_false_iff_ne]
      exact string_append_right_cancel hne _
    simp [ObservationStore.get, ObservationStore.save, hvalid, List.lookup, hkey]
  · simp [ObservationStore.get, ObservationStore.save, uuidToString_parse u, List.lookup]

/-- Witness for C10: the stored UUID written in uppercase passes
validation but retrieves nothing; the exact lowercase id retrieves the
content. -/
theorem C10_get_literal_name_witness :
    ObservationStore.get
        (ObservationStore.save [] 0x550e8400e29b41d4a716446655440000 ("t0") ("grep") ("payload")).2
        ("550E8400-E29B-41D4-A716-446655440000") = Except.ok none
  ∧ ObservationStore.get
        (ObservationStore.save [] 0x550e8400e29b41d4a716446655440000 ("t0") ("grep") ("payload")).2
        (ObservationStore.save [] 0x550e8400e29b41d4a716446655440000 ("t0") ("grep") ("payload")).1
      = Except.ok (some ("payload")) :=
  C10_get_literal_name 0x550e8400e29b41d4a716446655440000 ("t0") ("grep") ("payload")
    ("550E8400-E29B-41D4-A716-446655440000") (by decide) (by decide)

/-- Shape of a successful `save`: the written file holds exactly the
returned (mutated) context, `updated_at` is the save time, and
`created_at` is carried from the existing file when one was present. -/
theorem save_ok_shape {ctx : ProjectContext} {now : Nat} {dir : RustscpDir}
    {c : ProjectContext} {d : RustscpDir}
    (h : ProjectContext.save ctx now dir = Except.ok (c, d)) :
    d = some (RustscpFile.valid c) ∧ c.updated_at = now
  ∧ (dir = none → c = { ctx with updated_at := now })
  ∧ (∀ ex, dir = some (RustscpFile.valid ex) →
      c = { ctx with created_at := ex.created_at, updated_at := now }) := by
  cases dir with
  | none =>
    simp only [ProjectContext.save, ProjectContext.load, Except.ok.injEq, Prod.mk.injEq] at h
    obtain ⟨hc, hd⟩ := h
    subst hc
    subst hd
    exact ⟨rfl, rfl, fun _ => rfl, fun ex hx => Option.noConfusion hx⟩
  | some f =>
    cases f with
    | corrupted raw =>
      simp [ProjectContext.save, ProjectContext.load] at h
    | valid ex =>
      simp only [ProjectContext.save, ProjectContext.load, Except.ok.injEq, Prod.mk.injEq] at h
      obtain ⟨hc, hd⟩ := h
      subst hc
      subst hd
      refine ⟨rfl, rfl, fun hx => Option.noConfusion hx, ?_⟩
      intro ex2 hx
      have hex : ex = ex2 := by
        injection hx with h5
        injection h5
      subst hex
      rfl

/-- C2: saving then loading returns exactly the saved record (the
loaded value is the mutated context, equal in every field), and a
second save over the first one carries the first save's `created_at`
forward while stamping `updated_at` with the second save's time. -/
theorem C2_save_load_roundtrip :
    (∀ (ctx : ProjectContext) (now : Nat) (dir : RustscpDir)
        (ctx1 : ProjectContext) (dir1 : RustscpDir),
        ProjectContext.save ctx now dir = Except.ok (ctx1, dir1) →
        ProjectContext.load dir1 = Except.ok (some ctx1) ∧ ctx1.updated_at = now)
  ∧ (∀ (ctx ctx2 : ProjectContext) (t1 t2 : Nat) (dir : RustscpDir)
        (c1 : ProjectContext) (d1 : RustscpDir) (c2 : ProjectContext) (d2 : RustscpDir),
        ProjectContext.save ctx t1 dir = Except.ok (c1, d1) →
        ProjectContext.save ctx2 t2 d1 = Except.ok (c2, d2) →
        c2.created_at = c1.created_at ∧ c2.updated_at = t2) := by
  constructor
  · intro ctx now dir ctx1 dir1 h
    obtain ⟨hd, hup, -, -⟩ := save_ok_shape h
    subst hd
    exact ⟨rfl, hup⟩
  · intro ctx ctx2 t1 t2 dir c1 d1 c2 d2 h1 h2
    obtain ⟨hd1, -, -, -⟩ := save_ok_shape h1
    obtain ⟨-, -, -, hval⟩ := save_ok_shape h2
    have hc2 := hval c1 hd1
    subst hc2
    exact ⟨rfl, rfl⟩

/-- Witness for C2: a concrete context saved into an empty directory at
time 5 and re-saved (as a fresh re-analysis) at time 9 keeps
`created_at = 100` and gets `updated_at = 9`. -/
theorem C2_save_load_roundtrip_witness :
    (ProjectContext.load (some (RustscpFile.valid { ctxSample with updated_at := 5 }))
        = Except.ok (some { ctxSample with updated_at := 5 })
      ∧ ({ ctxSample with updated_at := 5 } : ProjectContext).updated_at = 5)
  ∧ (({ ctxSample2 with created_at := 100, updated_at := 9 } : ProjectContext).created_at
        = ({ ctxSample with updated_at := 5 } : ProjectContext).created_at
      ∧ ({ ctxSample2 with created_at := 100, updated_at := 9 } : ProjectContext).updated_at = 9) :=
  ⟨C2_save_load_roundtrip.1 ctxSample 5 none { ctxSample with updated_at := 5 }
      (some (RustscpFile.valid { ctxSample with updated_at := 5 })) rfl,
   C2_save_load_roundtrip.2 ctxSample ctxSample2 5 9 none
      { ctxSample with updated_at := 5 }
      (some (RustscpFile.valid { ctxSample with updated_at := 5 }))
      { ctxSample2 with created_at := 100, updated_at := 9 }
      (some (RustscpFile.valid { ctxSample2 with created_at := 100, updated_at := 9 }))
      rfl rfl⟩

/-- C4: `load` on a directory without a context file returns `Ok(None)`
and never an error; on a file that exists but does not parse it returns
an error and never a default or empty value. -/
theorem C4_load_missing_vs_corrupt :
    ProjectContext.load none = Except.ok none
  ∧ (∀ raw : String,
      ProjectContext.load (some (RustscpFile.corrupted raw)) = Except.error rustscpParseErrMsg) :=
  ⟨rfl, fun _ => rfl⟩

/-- C5 counterexample: `ctxTieA` and `ctxTieB` carry the same extension
histogram as a finite map (their entry lists are permutations of each
other), yet the sort in `format_for_claude` compares counts only and is
stable, so the iteration order `[b, a]` renders `.b` before `.a` — not
the claimed extension-name-ascending tie order — and the two equal-map
contexts render differently. -/
theorem C5_format_tie_counterexample :
    List.Perm ctxTieA.stats.by_extension ctxTieB.stats.by_extension
  ∧ extBreakdownPart ctxTieB.stats = " (.b: 2, .a: 2)\n"
  ∧ " (.b: 2, .a: 2)\n" ≠ " (.a: 2, .b: 2)\n"
  ∧ ProjectContext.format_for_claude ctxTieA ≠ ProjectContext.format_for_claude ctxTieB :=
  ⟨by decide, by decide, by decide, by decide⟩

/-- C5 amended: the breakdown is rendered immediately after the total
file count, sorted by count descending; it is a permutation of the
histogram entries, and the sort is stable — entries of each fixed count
keep the map's iteration order verbatim (no tie-break by extension
name). The rendering is the deterministic concatenation below. -/
theorem C5_format_breakdown_amended (ctx : ProjectContext) :
    List.Perm (sortByCountDesc ctx.stats.by_extension) ctx.stats.by_extension
  ∧ List.Pairwise (fun p q : String × Nat => q.2 ≤ p.2) (sortByCountDesc ctx.stats.by_extension)
  ∧ (∀ c : Nat, (sortByCountDesc ctx.stats.by_extension).filter (fun q => q.2 == c)
        = ctx.stats.by_extension.filter (fun q => q.2 == c))
  ∧ ProjectContext.format_for_claude ctx
      = "# Project: " ++ ctx.name ++ "\n\n"
        ++ "**Type:** " ++ ctx.project_type ++ " | **Framework:** "
        ++ ctx.framework.getD ("n/a") ++ "\n"
        ++ "**Files:** " ++ toString ctx.stats.total_files ++ " total"
        ++ extBreakdownPart ctx.stats
        ++ depsSection ctx ++ patternsSection ctx ++ footerPart ctx :=
  ⟨sortByCountDesc_perm _, sortByCountDesc_pairwise _,
   fun c => sortByCountDesc_filter _ c, rfl⟩

/-- C6 counterexample: the persisted record has exactly the nine serde
fields listed — none is a declared project version or an
archive-observation identifier — and `from_analysis` discards the
project's declared `version`: two analyses differing only in it produce
identical contexts. -/
theorem C6_schema_counterexample :
    projectContextFieldNames
      = [ "version", "name", "project_type", "framework", "dependencies",
          "stats", "matched_patterns", "created_at", "updated_at" ]
  ∧ ("obs_id" ∉ projectContextFieldNames ∧ "observation_id" ∉ projectContextFieldNames
      ∧ "project_version" ∉ projectContextFieldNames)
  ∧ ProjectContext.from_analysis
        { analysisSample with project := { projectSample with version := some ("9.9.9") } } 0
      = ProjectContext.from_analysis analysisSample 0 :=
  ⟨rfl, by decide, rfl⟩

/-- C6 amended: the persisted record carries the schema version (the
constant 1), both timestamps, the project name and type, the resolved
framework label, the dependency summary, the file statistics and the
pattern references — and only those nine fields: in particular neither
the project's declared version (ignored by `from_analysis`) nor an
archive-observation identifier. -/
theorem C6_schema_amended (a : AnalysisResult) (now : Nat) :
    (ProjectContext.from_analysis a now).version = 1
  ∧ (ProjectContext.from_analysis a now).name = a.project.name
  ∧ (ProjectContext.from_analysis a now).project_type = a.project.project_type.as_str
  ∧ (ProjectContext.from_analysis a now).created_at = now
  ∧ (ProjectContext.from_analysis a now).updated_at = now
  ∧ (ProjectContext.from_analysis a now).stats.total_files = a.project.files.length
  ∧ (ProjectContext.from_analysis a now).stats.by_extension = buildByExtension a.project.files
  ∧ (ProjectContext.from_analysis a now).dependencies
      = a.project.dependencies.map (fun d =>
          { name := d.name, version := d.version, dev := d.dev_only })
  ∧ (ProjectContext.from_analysis a now).matched_patterns.length = a.patterns.length
  ∧ projectContextFieldNames.length = 9
  ∧ (∀ v : Option String,
      ProjectContext.from_analysis { a with project := { a.project with version := v } } now
        = ProjectContext.from_analysis a now) :=
  ⟨rfl, rfl, rfl, rfl, rfl, rfl, rfl, rfl,
   by simp [ProjectContext.from_analysis], rfl, fun v => rfl⟩

/-- C7: the framework label is resolved by the fixed fallback chain
target_framework, then rust_edition, then node_version, then
python_version — the first populated field wins; the result is a
single `Option`, so at most one label is ever produced. -/
theorem C7_framework_priority (a : AnalysisResult) (now : Nat) :
    (ProjectContext.from_analysis a now).framework
      = (a.project.metadata.target_framework.orElse fun _ =>
          (a.project.metadata.rust_edition.orElse fun _ =>
            (a.project.metadata.node_version.orElse fun _ =>
              a.project.metadata.python_version)))
  ∧ (∀ v, a.project.metadata.target_framework = some v →
        (ProjectContext.from_analysis a now).framework = some v)
  ∧ (a.project.metadata.target_framework = none →
      ∀ v, a.project.metadata.rust_edition = some v →
        (ProjectContext.from_analysis a now).framework = some v)
  ∧ (a.project.metadata.target_framework = none →
      a.project.metadata.rust_edition = none →
      ∀ v, a.project.metadata.node_version = some v →
        (ProjectContext.from_analysis a now).framework = some v)
  ∧ (a.project.metadata.target_framework = none →
      a.project.metadata.rust_edition = none →
      a.project.metadata.node_version = none →
        (ProjectContext.from_analysis a now).framework
          = a.project.metadata.python_version) := by
  have base : (ProjectContext.from_analysis a now).framework
      = (a.project.metadata.target_framework.orElse fun _ =>
          (a.project.metadata.rust_edition.orElse fun _ =>
            (a.project.metadata.node_version.orElse fun _ =>
              a.project.metadata.python_version))) := rfl
  refine ⟨base, ?_, ?_, ?_, ?_⟩
  · intro v hv
    rw [base, hv]
    rfl
  · intro h0 v hv
    rw [base, h0, hv]
    rfl
  · intro h0 h1 v hv
    rw [base, h0, h1, hv]
    rfl
  · intro h0 h1 h2
    rw [base, h0, h1, h2]
    rfl

/-- Witness for C7: with a target framework present it wins over the
Rust edition; with only a Rust edition present the fallback yields
it. -/
theorem C7_framework_priority_witness :
    (ProjectContext.from_analysis analysisTF 0).framework = some ("net8.0")
  ∧ (ProjectContext.from_analysis analysisSample 0).framework = some ("2021") :=
  ⟨(C7_framework_priority analysisTF 0).2.1 ("net8.0") rfl,
   (C7_framework_priority analysisSample 0).2.2.1 rfl ("2021") rfl⟩

/-- C8: each matched pattern becomes exactly the four-field reference
(id, title, category, relevance score), and the pattern code bodies
leave no trace in the context: rewriting every pattern's `code`
arbitrarily produces the identical `ProjectContext`. -/
theorem C8_pattern_refs (a : AnalysisResult) (now : Nat) :
    (ProjectContext.from_analysis a now).matched_patterns
      = a.patterns.map (fun p =>
          { id := p.id, title := p.title, category := p.category,
            score := p.relevance_score })
  ∧ (∀ f : CodePattern → String,
      ProjectContext.from_analysis
          { a with patterns := a.patterns.map (fun p => { p with code := f p }) } now
        = ProjectContext.from_analysis a now) := by
  constructor
  · rfl
  · intro f
    cases a with
    | mk proj pats sugg stats =>
      simp [ProjectContext.from_analysis, List.map_map, Function.comp]

/-- C9: the Dependencies section renders exactly the dependencies whose
dev flag is false, in their original list order (the rendered list is
the filter of the dependency list, hence an order-preserving sublist);
dev-only entries never make it into the rendered list. -/
theorem C9_deps_section (ctx : ProjectContext) :
    prodDeps ctx = ctx.dependencies.filter (fun d => d.dev == false)
  ∧ List.Sublist (prodDeps ctx) ctx.dependencies
  ∧ (∀ d, d ∈ prodDeps ctx ↔ (d ∈ ctx.dependencies ∧ d.dev = false))
  ∧ depsSection ctx
      = (if (prodDeps ctx).isEmpty then ""
         else "\n## Dependencies (" ++ toString (prodDeps ctx).length ++ ")\n\n"
           ++ String.join ((prodDeps ctx).map fun d =>
                "- " ++ d.name ++ " (" ++ d.version ++ ")\n")) := by
  refine ⟨?_, List.filter_sublist _, ?_, rfl⟩
  · apply List.filter_congr
    intro d _
    cases hd : d.dev <;> rfl
  · intro d
    simp [prodDeps, List.mem_filter]
